/-
Verification of the sampled Outpost SDK excerpt: the pyproject readme patch
script, the authentication example script, the typed error classes, and the
generated data-model classes. Python strings are embedded as `List Char`,
fallible I/O as `Option`/`Except`, and each Python function as a Lean
function over those types.
-/
import Mathlib

namespace Outpost

/-! ## scripts/patch_pyproject_readme.py -/

/-- The constant `OLD` of the patch script: the readme line Speakeasy emits. -/
def OLD : List Char := "readme = \"README-PYPI.md\"".toList

/-- The constant `NEW` of the patch script: the readme line we patch in. -/
def NEW : List Char := "readme = \"README.md\"".toList

/-- `isStart pat s` decides whether `pat` is an initial segment of `s`
(Python's `str.startswith`, used here as the primitive behind substring
search). -/
def isStart : List Char → List Char → Bool
  | [], _ => true
  | _ :: _, [] => false
  | c :: cs, d :: ds => c = d && isStart cs ds

/-- `findSplit pat s` scans `s` left to right for the first occurrence of
`pat`; on success it returns the part before the occurrence and the part
after it.  This is the search underlying Python's `pat in s` and
`s.replace(pat, new, 1)`. -/
def findSplit (pat : List Char) : List Char → Option (List Char × List Char)
  | [] => if isStart pat [] then some ([], []) else none
  | c :: rest =>
    if isStart pat (c :: rest) then some ([], (c :: rest).drop pat.length)
    else
      match findSplit pat rest with
      | none => none
      | some (p, suf) => some (c :: p, suf)

/-- Python's substring test `pat in s`. -/
def containsSub (s pat : List Char) : Bool := (findSplit pat s).isSome

/-- Python's `s.replace(old, new, 1)`: replace the leftmost occurrence of
`old` by `new`, or return `s` unchanged when `old` does not occur. -/
def replaceFirst (s old new : List Char) : List Char :=
  match findSplit old s with
  | none => s
  | some (p, suf) => p ++ new ++ suf

/-- `main` of `patch_pyproject_readme.py`.  The file system is explicit:
`readRes` is the result of reading `pyproject.toml` (`none` when the read
raises `OSError`), and `writeOk` tells whether the write succeeds.  The
write is modelled as atomic: the first component of the result is the
content written to the file (`none` when nothing is written), the second is
the process exit code returned by `main`. -/
def main (readRes : Option (List Char)) (writeOk : Bool) :
    Option (List Char) × Nat :=
  match readRes with
  | none => (none, 1)
  | some content =>
    if containsSub content OLD = false then
      if containsSub content NEW = true then (none, 0) else (none, 1)
    else
      let patched := replaceFirst content OLD NEW
      if writeOk then (some patched, 0) else (none, 1)

/-- The file content after a run of `main` that wrote `w`. -/
def afterWrite (c : List Char) : Option (List Char) → List Char
  | none => c
  | some c' => c'

/-! ## errors/notfound_error.py and errors/ratelimited_error.py -/

/-- An `httpx.Response` as the error classes use it: the only member the
excerpt reads is `.text`.  (httpx is a third-party library; only the used
surface is embedded.) -/
structure HttpxResponse where
  text : String
deriving DecidableEq

/-- A Python `Dict[str, Any]` value as stored in `additional_properties`;
the excerpt never inspects the values, so they are embedded as strings. -/
def PyDict : Type := List (String × String)

/-- `NotFoundErrorData`: pydantic model with an optional `message` and
excluded `additional_properties`. -/
structure NotFoundErrorData where
  message : Option String := none
  additional_properties : Option PyDict := none

/-- `RateLimitedErrorData`: pydantic model with an optional `message` and
excluded `additional_properties`. -/
structure RateLimitedErrorData where
  message : Option String := none
  additional_properties : Option PyDict := none

/-- Modelled from the spec: `OutpostError`, the SDK base error class, is not
in the excerpt; per the spec the errors are "thin exception wrappers around
HTTP responses", so the base class stores the message, the raw HTTP
response, and the optional body that `NotFoundError.__init__` passes to
`super().__init__`. -/
structure OutpostError where
  message : String
  raw_response : HttpxResponse
  body : Option String

/-- `NotFoundError`: subclass of `OutpostError` that additionally stores the
parsed error `data`. -/
structure NotFoundError extends OutpostError where
  data : NotFoundErrorData

/-- `RateLimitedError`: subclass of Python's bare `Exception`; its
`__init__(self, data)` stores only the parsed error data.  (Its `__str__`
delegates to `utils.marshal_json`, which is outside the excerpt and not
needed by any claim.) -/
structure RateLimitedError where
  data : RateLimitedErrorData

/-- Python `str(x)` for `x : Optional[str]`: `str(None)` is the literal
string `"None"`. -/
def pyStrOpt : Option String → String
  | none => "None"
  | some s => s

/-- Python `a or b` for strings: `a` when truthy (non-empty), else `b`. -/
def pyOrStr (a b : String) : String := if a = "" then b else a

/-- Python `body or raw_text` for `body : Optional[str]`: `None` and `""`
are falsy. -/
def pyOrOpt (body : Option String) (raw_text : String) : String :=
  match body with
  | none => raw_text
  | some s => if s = "" then raw_text else s

/-- `NotFoundError.__init__`: computes `fallback = body or raw_response.text`
and `message = str(data.message) or fallback`, passes them to the base
class, and stores `data`. -/
def NotFoundError.init (data : NotFoundErrorData) (raw_response : HttpxResponse)
    (body : Option String) : NotFoundError :=
  let fallback := pyOrOpt body raw_response.text
  let message := pyOrStr (pyStrOpt data.message) fallback
  { message := message, raw_response := raw_response, body := body, data := data }

/-- `RateLimitedError.__init__(self, data)`: stores the data; it has no raw
response parameter. -/
def RateLimitedError.init (data : RateLimitedErrorData) : RateLimitedError :=
  { data := data }

/-- The claim-shaped property, following the spec's words, that every typed
error class is constructed from the parsed error data *and* the raw HTTP
response and stores both.  For `RateLimitedError` the construction the
source performs from a context holding data `d` and response `r` is
`RateLimitedError.init d` (the response is not a parameter of `__init__`),
so storing the response means some projection of the constructed instance
recovers `r`. -/
def typedErrorsStoreRawResponse : Prop :=
  (∃ projNF : NotFoundError → HttpxResponse,
    ∀ (d : NotFoundErrorData) (r : HttpxResponse) (b : Option String),
      projNF (NotFoundError.init d r b) = r) ∧
  (∃ projRL : RateLimitedError → HttpxResponse,
    ∀ (d : RateLimitedErrorData) (r : HttpxResponse),
      projRL (RateLimitedError.init d) = r)

/-! ## models/awskinesisconfig.py, destinationupdateawssqs.py,
destinationupdatehookdeck.py, gettenantop.py -/

/-- `TopicsUnion`: per its docstring, `"*"` or an array of enabled topics.
(Its defining file is outside the excerpt; only its existence matters to the
claims.) -/
inductive TopicsUnion where
  | star
  | topicList (topics : List String)

/-- Modelled from the spec: `AWSSQSConfig`, the AWS SQS destination
configuration model, is outside the excerpt; the claims use it only as an
opaque payload type. -/
structure AWSSQSConfig where

/-- Modelled from the spec: `AWSSQSCredentials`, outside the excerpt; used
only as an opaque payload type. -/
structure AWSSQSCredentials where

/-- Modelled from the spec: `HookdeckCredentials`, outside the excerpt; used
only as an opaque payload type. -/
structure HookdeckCredentials where

/-- A Python `Any` value, used opaquely. -/
structure PyAny where

/-- `AWSKinesisConfig`: `stream_name` and `region` are required;
`endpoint` and `partition_key_template` default to `None`. -/
structure AWSKinesisConfig where
  stream_name : String
  region : String
  endpoint : Option String := none
  partition_key_template : Option String := none

/-- `DestinationUpdateAWSSQS`: all three fields default to `None`. -/
structure DestinationUpdateAWSSQS where
  topics : Option TopicsUnion := none
  config : Option AWSSQSConfig := none
  credentials : Option AWSSQSCredentials := none

/-- `DestinationUpdateHookdeck`: all three fields default to `None`
(`config` is typed `Optional[Any]`). -/
structure DestinationUpdateHookdeck where
  topics : Option TopicsUnion := none
  config : Option PyAny := none
  credentials : Option HookdeckCredentials := none

/-- `GetTenantGlobals`: `tenant_id` is `Optional[str]` defaulting to `None`
(the `FieldMetadata` path-parameter annotation carries no constraint). -/
structure GetTenantGlobals where
  tenant_id : Option String := none

/-- `GetTenantRequest`: `tenant_id` is `Optional[str]` defaulting to `None`,
even though its docstring says it is required when using AdminApiKey
authentication. -/
structure GetTenantRequest where
  tenant_id : Option String := none

/-! ## examples/sdk-python/example/auth.py -/

/-- The result object returned by `tenants.get_token`, as the example script
inspects it: either Python `None`, or an object that may or may not have a
`token` attribute, whose value is `None` or a string. -/
inductive PyTokenRes where
  | pyNone
  | obj (hasTokenAttr : Bool) (token : Option String)
deriving DecidableEq

/-- Truthiness of `token_res` itself: `None` is falsy, any model object is
truthy. -/
def tokenResTruthy : PyTokenRes → Bool
  | .pyNone => false
  | .obj _ _ => true

/-- Python `hasattr(token_res, "token")`. -/
def hasTokenAttr : PyTokenRes → Bool
  | .pyNone => false
  | .obj h _ => h

/-- Truthiness of `token_res.token`: `None` and `""` are falsy.  (Only
evaluated under the `hasattr` guard.) -/
def tokenAttrTruthy : PyTokenRes → Bool
  | .pyNone => false
  | .obj _ none => false
  | .obj _ (some s) => decide ¬s = ""

/-- The guard `token_res and hasattr(token_res, "token") and
token_res.token` of `with_admin_api_key`. -/
def tokenGuard (t : PyTokenRes) : Bool :=
  tokenResTruthy t && (hasTokenAttr t && tokenAttrTruthy t)

/-- The value of `token_res.token`, read in the truthy branch. -/
def tokenValue : PyTokenRes → String
  | .obj _ (some s) => s
  | _ => ""

/-- A line of example-script output: a printed string, or the printed
`token_res` object. -/
inductive OutItem where
  | line (s : String)
  | tokenObj (t : PyTokenRes)
deriving DecidableEq

/-- An SDK call made by the example script, with the arguments it was given.
Recording these makes the call order and call arguments explicit. -/
inductive SdkCall where
  | healthCheck
  | destinationsList (tenant : Option String)
  | tenantsGetToken (tenant : String)
  | outpostInit (tenant_jwt : String)
deriving DecidableEq

/-- The result of running one of the example functions: the lines it
printed, the SDK calls it made in order, and the exception it propagated to
its caller (`none` when it returned normally). -/
structure ExampleResult where
  output : List OutItem
  calls : List SdkCall
  raised : Option String
deriving DecidableEq

/-- `with_jwt(outpost, jwt)`: prints a header, then tries
`outpost.destinations.list()`; on success prints the result, on any
exception prints the error and returns normally.  The SDK call is embedded
by its result `listRes` (`Except.error e` when the call raises `e`); `jwt`
is an unused parameter of the Python function. -/
def with_jwt (listRes : Except String String) (jwt : String) : ExampleResult :=
  let header := OutItem.line "--- Running with Tenant JWT ---"
  match listRes with
  | .error e =>
    { output := [header, .line ("Error listing destinations with JWT: " ++ e)],
      calls := [.destinationsList none],
      raised := none }
  | .ok r =>
    { output := [header, .line "Destinations listed successfully using JWT:", .line r],
      calls := [.destinationsList none],
      raised := none }

/-- The result of `with_admin_api_key`, which additionally records the JWT
used to re-initialize the nested `Outpost` client (`none` when no client
was re-initialized). -/
structure AdminResult where
  output : List OutItem
  calls : List SdkCall
  raised : Option String
  jwtClient : Option String
deriving DecidableEq

/-- `with_admin_api_key(outpost, tenant_id)`: inside one `try`, checks
health, lists destinations for `tenant_id`, obtains a tenant token; when
the token guard holds it re-initializes an `Outpost` client with
`tenant_jwt=token_res.token` and runs `with_jwt`, otherwise prints that no
token was obtained; any exception from the calls is caught and printed.
The three SDK calls are embedded by their results, evaluated in order. -/
def with_admin_api_key (healthRes : Except String String)
    (destRes : Except String String) (tokenRes : Except String PyTokenRes)
    (jwtListRes : Except String String) (tenant_id : String) : AdminResult :=
  let header := OutItem.line "--- Running with Admin API Key ---"
  let errLine (e : String) := OutItem.line ("Error during admin operations: " ++ e)
  match healthRes with
  | .error e =>
    { output := [header, errLine e], calls := [.healthCheck],
      raised := none, jwtClient := none }
  | .ok h =>
    let out₁ := [header, .line "Health check result:", .line h]
    match destRes with
    | .error e =>
      { output := out₁ ++ [errLine e],
        calls := [.healthCheck, .destinationsList (some tenant_id)],
        raised := none, jwtClient := none }
    | .ok d =>
      let out₂ := out₁ ++
        [.line ("Destinations listed successfully using Admin Key for tenant "
          ++ tenant_id ++ ":"), .line d]
      match tokenRes with
      | .error e =>
        { output := out₂ ++ [errLine e],
          calls := [.healthCheck, .destinationsList (some tenant_id),
            .tenantsGetToken tenant_id],
          raised := none, jwtClient := none }
      | .ok t =>
        let out₃ := out₂ ++
          [.line ("Tenant token obtained for tenant " ++ tenant_id ++ ":"),
            .tokenObj t]
        if tokenGuard t then
          let tok := tokenValue t
          let jwtRun := with_jwt jwtListRes tok
          { output := out₃ ++ jwtRun.output,
            calls := [.healthCheck, .destinationsList (some tenant_id),
              .tenantsGetToken tenant_id, .outpostInit tok] ++ jwtRun.calls,
            raised := none, jwtClient := some tok }
        else
          { output := out₃ ++ [.line "Could not obtain tenant token."],
            calls := [.healthCheck, .destinationsList (some tenant_id),
              .tenantsGetToken tenant_id],
            raised := none, jwtClient := none }

/-- Python truthiness of `os.getenv(...)`: unset (`None`) and the empty
string are falsy. -/
def envFalsy : Option String → Bool
  | none => true
  | some s => decide (s = "")

/-- The result of `run()`: the lines printed, the exit status passed to
`sys.exit` (`none` when `run` fell through normally), and the `server_url`
of the `Outpost` client it constructed (`none` when no client was
constructed). -/
structure RunResult where
  output : List OutItem
  exitCode : Option Nat
  clientUrl : Option String
deriving DecidableEq

/-- `run()`: validates `ADMIN_API_KEY`, `TENANT_ID`, `SERVER_URL` in that
order, exiting with status 1 on the first falsy one; otherwise constructs
an `Outpost` client against `SERVER_URL + "/api/v1"` and runs
`with_admin_api_key`.  The environment is the function `env`; the SDK calls
are embedded by their results as in `with_admin_api_key`. -/
def run (env : String → Option String) (healthRes destRes : Except String String)
    (tokenRes : Except String PyTokenRes) (jwtListRes : Except String String) :
    RunResult :=
  let admin_api_key := env "ADMIN_API_KEY"
  let tenant_id := env "TENANT_ID"
  let server_url := env "SERVER_URL"
  if envFalsy admin_api_key then
    { output := [.line "Error: ADMIN_API_KEY not set."], exitCode := some 1,
      clientUrl := none }
  else if envFalsy tenant_id then
    { output := [.line "Error: TENANT_ID not set."], exitCode := some 1,
      clientUrl := none }
  else if envFalsy server_url then
    { output := [.line "Error: SERVER_URL not set."], exitCode := some 1,
      clientUrl := none }
  else
    let api_server_url := server_url.getD "" ++ "/api/v1"
    let adminRes := with_admin_api_key healthRes destRes tokenRes jwtListRes
      (tenant_id.getD "")
    { output := adminRes.output ++ [.line "--- Example finished ---"],
      exitCode := none,
      clientUrl := some api_server_url }

/-! ## Occurrence counting for the patch script -/

/-- The set of positions in `s` at which `pat` occurs. -/
def occPositions (s pat : List Char) : Finset ℕ :=
  (Finset.range (s.length + 1)).filter (fun i => isStart pat (s.drop i) = true)

/-- The number of positions in `s` at which `pat` occurs. -/
def countOcc (s pat : List Char) : ℕ := (occPositions s pat).card

/-! ### Basic lemmas about `isStart` and `findSplit` -/

theorem isStart_iff_append (pat s : List Char) :
    isStart pat s = true ↔ ∃ t, s = pat ++ t := by
  induction pat generalizing s with
  | nil => simp [isStart]
  | cons c cs ih =>
    cases s with
    | nil => simp [isStart]
    | cons d ds =>
      simp only [isStart, Bool.and_eq_true, decide_eq_true_eq, ih,
        List.cons_append, List.cons.injEq]
      constructor
      · rintro ⟨rfl, t, rfl⟩; exact ⟨t, rfl, rfl⟩
      · rintro ⟨t, rfl, rfl⟩; exact ⟨rfl, t, rfl⟩

theorem isStart_append_self (pat t : List Char) :
    isStart pat (pat ++ t) = true :=
  (isStart_iff_append pat _).mpr ⟨t, rfl⟩

theorem drop_append_len (a b : List Char) : (a ++ b).drop a.length = b := by
  induction a with
  | nil => rfl
  | cons c cs ih =>
    simp only [List.cons_append, List.length_cons, List.drop_succ_cons]
    exact ih

theorem findSplit_sound (pat s p suf : List Char)
    (h : findSplit pat s = some (p, suf)) : s = p ++ pat ++ suf := by
  induction s generalizing p suf with
  | nil =>
    unfold findSplit at h
    by_cases hs : isStart pat [] = true
    · have hpat : pat = [] := by
        rcases (isStart_iff_append pat []).mp hs with ⟨t, ht⟩
        cases pat with
        | nil => rfl
        | cons c cs => simp at ht
      rw [if_pos hs] at h
      simp only [Option.some.injEq, Prod.mk.injEq] at h
      obtain ⟨hp, hsuf⟩ := h
      subst hpat
      simp [← hp, ← hsuf]
    · rw [if_neg hs] at h
      simp at h
  | cons c rest ih =>
    unfold findSplit at h
    by_cases hs : isStart pat (c :: rest) = true
    · rcases (isStart_iff_append pat _).mp hs with ⟨t, ht⟩
      rw [if_pos hs] at h
      simp only [Option.some.injEq, Prod.mk.injEq] at h
      obtain ⟨hp, hsuf⟩ := h
      rw [← hp, ← hsuf, ht, drop_append_len]
      simp
    · rw [if_neg hs] at h
      cases hrec : findSplit pat rest with
      | none => rw [hrec] at h; simp at h
      | some pr =>
        rw [hrec] at h
        cases pr with
        | mk p₀ suf₀ =>
          simp only [Option.some.injEq, Prod.mk.injEq] at h
          obtain ⟨hp, hsuf⟩ := h
          have hrest := ih p₀ suf₀ hrec
          rw [← hp, ← hsuf, hrest]
          simp

theorem findSplit_min (pat s p suf : List Char)
    (h : findSplit pat s = some (p, suf)) :
    ∀ a b, s = a ++ pat ++ b → p.length ≤ a.length := by
  induction s generalizing p suf with
  | nil =>
    intro a b hab
    unfold findSplit at h
    by_cases hs : isStart pat [] = true
    · rw [if_pos hs] at h
      simp only [Option.some.injEq, Prod.mk.injEq] at h
      simp [← h.1]
    · rw [if_neg hs] at h
      simp at h
  | cons c rest ih =>
    intro a b hab
    unfold findSplit at h
    by_cases hs : isStart pat (c :: rest) = true
    · rw [if_pos hs] at h
      simp only [Option.some.injEq, Prod.mk.injEq] at h
      simp [← h.1]
    · rw [if_neg hs] at h
      cases a with
      | nil =>
        exfalso
        apply hs
        rw [isStart_iff_append]
        exact ⟨b, by simpa using hab⟩
      | cons a0 as =>
        simp only [List.cons_append, List.cons.injEq] at hab
        cases hrec : findSplit pat rest with
        | none => rw [hrec] at h; simp at h
        | some pr =>
          rw [hrec] at h
          cases pr with
          | mk p₀ suf₀ =>
            simp only [Option.some.injEq, Prod.mk.injEq] at h
            have hle := ih p₀ suf₀ hrec as b hab.2
            rw [← h.1]
            simpa using hle

theorem findSplit_complete (pat s a b : List Char)
    (hab : s = a ++ pat ++ b) : (findSplit pat s).isSome = true := by
  induction s generalizing a with
  | nil =>
    have hpat : isStart pat [] = true := by
      rw [isStart_iff_append]
      have h1 : a = [] ∧ pat = [] ∧ b = [] := by
        have := congrArg List.length hab
        simp [List.length_append] at this
        refine ⟨List.length_eq_zero.mp ?_, List.length_eq_zero.mp ?_,
          List.length_eq_zero.mp ?_⟩ <;> omega
      exact ⟨b, by simp [h1.2.1, h1.2.2]⟩
    unfold findSplit
    simp [hpat]
  | cons c rest ih =>
    unfold findSplit
    by_cases hs : isStart pat (c :: rest) = true
    · simp [hs]
    · rw [if_neg hs]
      cases a with
      | nil =>
        exfalso
        apply hs
        rw [isStart_iff_append]
        exact ⟨b, by simpa using hab⟩
      | cons a0 as =>
        simp only [List.cons_append, List.cons.injEq] at hab
        have hrest := ih as hab.2
        cases hrec : findSplit pat rest with
        | none => rw [hrec] at hrest; simp at hrest
        | some pr => simp

theorem containsSub_of_decomp (s pat a b : List Char)
    (hab : s = a ++ pat ++ b) : containsSub s pat = true :=
  findSplit_complete pat s a b hab

theorem not_decomp_of_not_containsSub (s pat : List Char)
    (h : containsSub s pat = false) : ∀ a b, s ≠ a ++ pat ++ b := by
  intro a b hab
  have := containsSub_of_decomp s pat a b hab
  rw [h] at this
  exact Bool.false_ne_true this

/-! ### Take/drop surgery lemmas -/

theorem take_append_len (a b : List Char) : (a ++ b).take a.length = a := by
  induction a with
  | nil => rfl
  | cons c cs ih =>
    simp only [List.cons_append, List.length_cons, List.take_succ_cons]
    rw [ih]

theorem drop_append_add (a b : List Char) (n : ℕ) :
    (a ++ b).drop (a.length + n) = b.drop n := by
  induction a with
  | nil => simp
  | cons c cs ih =>
    simp only [List.cons_append, List.length_cons]
    rw [Nat.add_right_comm, List.drop_succ_cons]
    exact ih

theorem take_append_add (a b : List Char) (n : ℕ) :
    (a ++ b).take (a.length + n) = a ++ b.take n := by
  induction a with
  | nil => simp
  | cons c cs ih =>
    simp only [List.cons_append, List.length_cons]
    rw [Nat.add_right_comm, List.take_succ_cons, ih]

theorem drop_append_le (a b : List Char) (n : ℕ) (h : n ≤ a.length) :
    (a ++ b).drop n = a.drop n ++ b := by
  induction a generalizing n with
  | nil =>
    have : n = 0 := Nat.le_zero.mp h
    simp [this]
  | cons c cs ih =>
    cases n with
    | zero => simp
    | succ m =>
      simp only [List.cons_append, List.drop_succ_cons]
      exact ih m (by simpa using h)

theorem take_append_le (a b : List Char) (n : ℕ) (h : n ≤ a.length) :
    (a ++ b).take n = a.take n := by
  induction a generalizing n with
  | nil =>
    have : n = 0 := Nat.le_zero.mp h
    simp [this]
  | cons c cs ih =>
    cases n with
    | zero => simp
    | succ m =>
      simp only [List.cons_append, List.take_succ_cons]
      rw [ih m (by simpa using h)]

/-! ### Occurrence counting -/

theorem mem_occPositions_of_decomp (s pat a b : List Char)
    (hab : s = a ++ pat ++ b) : a.length ∈ occPositions s pat := by
  unfold occPositions
  rw [Finset.mem_filter, Finset.mem_range]
  constructor
  · have := congrArg List.length hab
    simp [List.length_append] at this
    omega
  · have hdrop : s.drop a.length = pat ++ b := by
      rw [hab, List.append_assoc, drop_append_len]
    rw [hdrop]
    exact isStart_append_self pat b

theorem decomp_length_eq_of_count_le_one (s pat : List Char)
    (hcount : countOcc s pat ≤ 1) :
    ∀ a b a' b', s = a ++ pat ++ b → s = a' ++ pat ++ b' →
      a.length = a'.length := by
  intro a b a' b' h1 h2
  by_contra hne
  have m1 := mem_occPositions_of_decomp s pat a b h1
  have m2 := mem_occPositions_of_decomp s pat a' b' h2
  have hcard : 1 < (occPositions s pat).card :=
    Finset.one_lt_card.mpr ⟨_, m1, _, m2, hne⟩
  unfold countOcc at hcount
  omega

/-! ### The concrete patch constants -/

theorem OLD_length : OLD.length = 25 := by decide

theorem NEW_length : NEW.length = 20 := by decide

/-- No alignment of `OLD` over the middle-right of `NEW` matches: used to
rule out an occurrence of `OLD` overlapping the left part of the
substituted block. -/
theorem span_left_long : ∀ k, k < 25 → 5 ≤ k →
    ¬OLD.drop k = NEW.take (25 - k) := by decide

/-- No short left-shift alignment of `OLD` over `NEW` matches. -/
theorem span_left_short : ∀ k, k < 5 → 1 ≤ k →
    ¬(OLD.drop k).take 20 = NEW := by decide

/-- No alignment of `OLD` starting inside the substituted `NEW` block
matches. -/
theorem span_right : ∀ k, k < 20 → ¬NEW.drop k = OLD.take (20 - k) := by decide

/-- After replacing the unique occurrence of `OLD` in
`content = p ++ OLD ++ suf` by `NEW`, the result contains no occurrence of
`OLD`: an occurrence inside `p` or inside `suf` would be a second
occurrence of `OLD` in `content`, and no occurrence can overlap the
substituted `NEW` block. -/
theorem no_OLD_in_patched (content p suf : List Char)
    (hcontent : content = p ++ OLD ++ suf)
    (hcount : countOcc content OLD ≤ 1) :
    ∀ a b, p ++ NEW ++ suf ≠ a ++ OLD ++ b := by
  intro a b heq
  have heq' : p ++ (NEW ++ suf) = a ++ (OLD ++ b) := by
    simpa [List.append_assoc] using heq
  by_cases h1 : a.length + 25 ≤ p.length
  · -- the occurrence would lie entirely inside `p`
    have ht := congrArg (List.take p.length) heq'
    rw [take_append_len] at ht
    set m := p.length - a.length - 25 with hm
    have hP : p.length = a.length + (OLD.length + m) := by
      rw [OLD_length]; omega
    rw [hP, take_append_add, take_append_add] at ht
    have hd2 : content = a ++ OLD ++ (b.take m ++ OLD ++ suf) := by
      rw [hcontent, ht]
      simp only [List.append_assoc]
    have hlen := decomp_length_eq_of_count_le_one content OLD hcount
      p suf a (b.take m ++ OLD ++ suf) hcontent hd2
    omega
  · by_cases h2 : p.length + 20 ≤ a.length
    · -- the occurrence would lie entirely inside `suf`
      have ht := congrArg (List.drop (p.length + 20)) heq'
      have hL : (p ++ (NEW ++ suf)).drop (p.length + 20) = suf := by
        rw [← List.append_assoc]
        have hlen : p.length + 20 = (p ++ NEW).length := by
          rw [List.length_append, NEW_length]
        rw [hlen, drop_append_len]
      rw [hL, drop_append_le _ _ _ h2] at ht
      have hd2 : content = (p ++ OLD ++ a.drop (p.length + 20)) ++ OLD ++ b := by
        rw [hcontent, ht]
        simp only [List.append_assoc]
      have hlen := decomp_length_eq_of_count_le_one content OLD hcount
        p suf (p ++ OLD ++ a.drop (p.length + 20)) b hcontent hd2
      rw [List.length_append, List.length_append, OLD_length, List.length_drop]
        at hlen
      omega
    · by_cases h3 : a.length < p.length
      · -- the occurrence would overlap `NEW` from the left
        have ht := congrArg (List.drop p.length) heq'
        rw [drop_append_len] at ht
        have hP : p.length = a.length + (p.length - a.length) := by omega
        rw [hP, drop_append_add] at ht
        have hk25 : p.length - a.length ≤ OLD.length := by rw [OLD_length]; omega
        rw [drop_append_le _ _ _ hk25] at ht
        by_cases h5 : 5 ≤ p.length - a.length
        · have ht2 := congrArg (List.take (25 - (p.length - a.length))) ht
          have hle : 25 - (p.length - a.length) ≤ NEW.length := by
            rw [NEW_length]; omega
          rw [take_append_le _ _ _ hle] at ht2
          have hlenD : (OLD.drop (p.length - a.length)).length =
              25 - (p.length - a.length) := by
            rw [List.length_drop, OLD_length]
          rw [← hlenD, take_append_len, hlenD] at ht2
          exact span_left_long (p.length - a.length) (by omega) h5 ht2.symm
        · have ht2 := congrArg (List.take 20) ht
          have hNl : (20 : ℕ) = NEW.length := NEW_length.symm
          rw [hNl] at ht2
          rw [take_append_len] at ht2
          have hle : NEW.length ≤ (OLD.drop (p.length - a.length)).length := by
            rw [List.length_drop, OLD_length, NEW_length]; omega
          rw [take_append_le _ _ _ hle] at ht2
          rw [← hNl] at ht2
          exact span_left_short (p.length - a.length) (by omega) (by omega) ht2.symm
      · -- the occurrence would start inside the `NEW` block
        have ht := congrArg (List.drop a.length) heq'
        rw [drop_append_len] at ht
        have hP : a.length = p.length + (a.length - p.length) := by omega
        rw [hP, drop_append_add] at ht
        have hk20 : a.length - p.length ≤ NEW.length := by rw [NEW_length]; omega
        rw [drop_append_le _ _ _ hk20] at ht
        have ht2 := congrArg (List.take (20 - (a.length - p.length))) ht
        have hlenD : (NEW.drop (a.length - p.length)).length =
            20 - (a.length - p.length) := by
          rw [List.length_drop, NEW_length]
        rw [← hlenD, take_append_len, hlenD] at ht2
        have hle : 20 - (a.length - p.length) ≤ OLD.length := by
          rw [OLD_length]; omega
        rw [take_append_le _ _ _ hle] at ht2
        exact span_right (a.length - p.length) (by omega) ht2

/-! ## Claim theorems -/

/-- Claim C2: for every file content that contains the old readme line,
`main` replaces exactly the first occurrence of it with the new readme line
(every character outside the replaced occurrence is unchanged, as witnessed
by the common pieces `p` and `suf`), writes the result back, and returns
0. -/
theorem main_patches_first (content : List Char)
    (h : containsSub content OLD = true) :
    ∃ p suf, content = p ++ OLD ++ suf ∧
      (∀ a b, content = a ++ OLD ++ b → p.length ≤ a.length) ∧
      main (some content) true = (some (p ++ NEW ++ suf), 0) := by
  unfold containsSub at h
  cases hfs : findSplit OLD content with
  | none => rw [hfs] at h; simp at h
  | some pr =>
    cases pr with
    | mk p suf =>
      refine ⟨p, suf, findSplit_sound OLD content p suf hfs,
        findSplit_min OLD content p suf hfs, ?_⟩
      have hc : containsSub content OLD = true := by
        unfold containsSub; rw [hfs]; rfl
      simp [main, hc, replaceFirst, hfs]

/-- Witness for C2: a content holding two occurrences of the old line; the
first one is the one replaced. -/
theorem main_patches_first_witness :
    containsSub ("x".toList ++ OLD ++ OLD) OLD = true ∧
    (∃ p suf, ("x".toList ++ OLD ++ OLD) = p ++ OLD ++ suf ∧
      (∀ a b, ("x".toList ++ OLD ++ OLD) = a ++ OLD ++ b → p.length ≤ a.length) ∧
      main (some ("x".toList ++ OLD ++ OLD)) true = (some (p ++ NEW ++ suf), 0)) :=
  ⟨by decide, main_patches_first ("x".toList ++ OLD ++ OLD) (by decide)⟩

/-- Claim C3: `main` handles every failure mode without modifying the file:
a failed read returns 1; content with neither the old nor the new line
returns 1 without writing; content with only the new line returns 0 without
writing; a failed write returns 1; and every run that returns 1 writes
nothing. -/
theorem main_error_handling :
    (∀ w, main none w = (none, 1)) ∧
    (∀ c w, containsSub c OLD = false → containsSub c NEW = false →
      main (some c) w = (none, 1)) ∧
    (∀ c w, containsSub c OLD = false → containsSub c NEW = true →
      main (some c) w = (none, 0)) ∧
    (∀ c, containsSub c OLD = true → main (some c) false = (none, 1)) ∧
    (∀ r w, (main r w).2 = 1 → (main r w).1 = none) := by
  refine ⟨fun w => rfl, ?_, ?_, ?_, ?_⟩
  · intro c w h1 h2; simp [main, h1, h2]
  · intro c w h1 h2; simp [main, h1, h2]
  · intro c h1; simp [main, h1]
  · intro r w
    match r with
    | none => intro _; rfl
    | some c =>
      by_cases h1 : containsSub c OLD = false
      · by_cases h2 : containsSub c NEW = true
        · simp [main, h1, h2]
        · simp [main, h1, h2]
      · rw [Bool.not_eq_false] at h1
        cases w with
        | false => simp [main, h1]
        | true => simp [main, h1]

/-- Witness for C3: a failed read, an unpatchable content, an
already-patched content, and a failed write, each behaving as claimed. -/
theorem main_error_handling_witness :
    main none true = (none, 1) ∧
    main (some "z".toList) true = (none, 1) ∧
    main (some NEW) true = (none, 0) ∧
    main (some OLD) false = (none, 1) ∧
    (main (some "z".toList) true).1 = none :=
  ⟨main_error_handling.1 true,
   main_error_handling.2.1 "z".toList true (by decide) (by decide),
   main_error_handling.2.2.1 NEW true (by decide) (by decide),
   main_error_handling.2.2.2.1 OLD (by decide),
   main_error_handling.2.2.2.2 (some "z".toList) true (by decide)⟩

/-- Claim C9: on content with at most one occurrence of the old readme
line, `main` is idempotent: after a successful first run, a second run
writes nothing and returns 0. -/
theorem main_idempotent (content : List Char)
    (hcount : countOcc content OLD ≤ 1)
    (w : Option (List Char)) (hfirst : main (some content) true = (w, 0)) :
    main (some (afterWrite content w)) true = (none, 0) := by
  by_cases hc : containsSub content OLD = true
  · unfold containsSub at hc
    cases hfs : findSplit OLD content with
    | none => rw [hfs] at hc; simp at hc
    | some pr =>
      cases pr with
      | mk p suf =>
        have hcs : containsSub content OLD = true := by
          unfold containsSub; rw [hfs]; rfl
        have hrun : main (some content) true = (some (p ++ NEW ++ suf), 0) := by
          simp [main, hcs, replaceFirst, hfs]
        rw [hrun] at hfirst
        injection hfirst with hw _
        have hdecomp := findSplit_sound OLD content p suf hfs
        have hnoold : containsSub (p ++ NEW ++ suf) OLD = false := by
          cases hfs2 : findSplit OLD (p ++ NEW ++ suf) with
          | none => unfold containsSub; rw [hfs2]; rfl
          | some pr2 =>
            exfalso
            cases pr2 with
            | mk a b =>
              exact no_OLD_in_patched content p suf hdecomp hcount a b
                (findSplit_sound OLD (p ++ NEW ++ suf) a b hfs2)
        have hnew : containsSub (p ++ NEW ++ suf) NEW = true :=
          containsSub_of_decomp (p ++ NEW ++ suf) NEW p suf rfl
        rw [← hw]
        rw [List.append_assoc] at hnoold hnew
        simp [afterWrite, main, hnoold, hnew]
  · rw [Bool.not_eq_true] at hc
    by_cases hn : containsSub content NEW = true
    · have hrun : main (some content) true = (none, 0) := by
        simp [main, hc, hn]
      rw [hrun] at hfirst
      injection hfirst with hw _
      rw [← hw]
      simpa [afterWrite] using hrun
    · rw [Bool.not_eq_true] at hn
      have hrun : main (some content) true = (none, 1) := by
        simp [main, hc, hn]
      rw [hrun] at hfirst
      injection hfirst with _ hcontra
      exact absurd hcontra.symm (by decide)

/-- Witness for C9: the content consisting of the old line alone is patched
by the first run and left untouched by the second. -/
theorem main_idempotent_witness :
    countOcc OLD OLD ≤ 1 ∧
    main (some OLD) true = (some ([] ++ NEW ++ []), 0) ∧
    main (some (afterWrite OLD (some ([] ++ NEW ++ [])))) true = (none, 0) :=
  ⟨by decide, by decide,
   main_idempotent OLD (by decide) (some ([] ++ NEW ++ [])) (by decide)⟩

/-- Claim C1 (counterexample): it is not the case that both typed error
classes are constructed from the parsed data and the raw HTTP response and
store that response — `RateLimitedError.__init__` takes only the data, so
from the same data the same instance is produced whatever response is at
hand, and no projection can recover the response. -/
theorem typed_errors_response_counterexample : ¬typedErrorsStoreRawResponse := by
  rintro ⟨-, projRL, hRL⟩
  have h1 := hRL ⟨none, none⟩ ⟨"a"⟩
  have h2 := hRL ⟨none, none⟩ ⟨"b"⟩
  rw [h1] at h2
  have hab : ("a" : String) = "b" := congrArg HttpxResponse.text h2
  exact absurd hab (by decide)

/-- Claim C1 (amended): `NotFoundError` construction takes and stores the
raw HTTP response (and the body) alongside the parsed error data, while
`RateLimitedError` construction takes and stores only the parsed error
data. -/
theorem typed_errors_stored_fields (d : NotFoundErrorData) (r : HttpxResponse)
    (b : Option String) (d' : RateLimitedErrorData) :
    (NotFoundError.init d r b).raw_response = r ∧
    (NotFoundError.init d r b).data = d ∧
    (NotFoundError.init d r b).body = b ∧
    (RateLimitedError.init d').data = d' :=
  ⟨rfl, rfl, rfl, rfl⟩

/-- Claim C8: `NotFoundError.__init__` uses the fallback (`body or
raw_response.text`) exactly when `str(data.message)` is the empty string,
and in particular a `None` message yields the literal message "None". -/
theorem notfound_message_branch (d : NotFoundErrorData) (r : HttpxResponse)
    (b : Option String) :
    (pyStrOpt d.message = "" →
      (NotFoundError.init d r b).message = pyOrOpt b r.text) ∧
    (¬pyStrOpt d.message = "" →
      (NotFoundError.init d r b).message = pyStrOpt d.message) ∧
    (d.message = none → (NotFoundError.init d r b).message = "None") := by
  refine ⟨?_, ?_, ?_⟩
  · intro h
    simp [NotFoundError.init, pyOrStr, h]
  · intro h
    simp [NotFoundError.init, pyOrStr, h]
  · intro h
    simp [NotFoundError.init, pyOrStr, pyStrOpt, h]

/-- Witness for C8: an empty-string message falls back to the response
text; a `None` message becomes the literal "None" even though a body
fallback is available. -/
theorem notfound_message_branch_witness :
    (NotFoundError.init ⟨some "", none⟩ ⟨"raw"⟩ none).message = pyOrOpt none "raw" ∧
    (NotFoundError.init ⟨none, none⟩ ⟨"raw"⟩ (some "body")).message = "None" :=
  ⟨(notfound_message_branch ⟨some "", none⟩ ⟨"raw"⟩ none).1 rfl,
   (notfound_message_branch ⟨none, none⟩ ⟨"raw"⟩ (some "body")).2.2 rfl⟩

/-- Claim C4: both example functions only catch and print: whichever SDK
call raises, the enclosing function prints an error line containing the
exception and returns normally, and neither function ever propagates an
exception to its caller. -/
theorem example_catch_and_print :
    (∀ lr jwt, (with_jwt lr jwt).raised = none) ∧
    (∀ e jwt, OutItem.line ("Error listing destinations with JWT: " ++ e) ∈
      (with_jwt (Except.error e) jwt).output) ∧
    (∀ h d t j tid, (with_admin_api_key h d t j tid).raised = none) ∧
    (∀ e d t j tid, OutItem.line ("Error during admin operations: " ++ e) ∈
      (with_admin_api_key (Except.error e) d t j tid).output) ∧
    (∀ h e t j tid, OutItem.line ("Error during admin operations: " ++ e) ∈
      (with_admin_api_key (Except.ok h) (Except.error e) t j tid).output) ∧
    (∀ h d e j tid, OutItem.line ("Error during admin operations: " ++ e) ∈
      (with_admin_api_key (Except.ok h) (Except.ok d) (Except.error e) j tid).output) := by
  refine ⟨?_, ?_, ?_, ?_, ?_, ?_⟩
  · intro lr jwt
    cases lr with
    | error e => rfl
    | ok r => rfl
  · intro e jwt
    simp [with_jwt]
  · intro h d t j tid
    cases h with
    | error e => rfl
    | ok hv =>
      cases d with
      | error e => rfl
      | ok dv =>
        cases t with
        | error e => rfl
        | ok tv =>
          by_cases hg : tokenGuard tv = true
          · simp [with_admin_api_key, hg]
          · simp [with_admin_api_key, hg]
  · intro e d t j tid
    simp [with_admin_api_key]
  · intro h e t j tid
    simp [with_admin_api_key]
  · intro h d e j tid
    simp [with_admin_api_key]

/-- Claim C5: when the three admin SDK calls succeed, they happen in the
fixed order health check, destination listing for the given tenant, token
retrieval; and exactly when the token guard holds, an `Outpost` client is
re-initialized with the obtained JWT and `with_jwt` runs (its calls and
output follow); otherwise the script prints that no token was obtained. -/
theorem admin_flow_order (h d : String) (t : PyTokenRes)
    (j : Except String String) (tid : String) :
    (with_admin_api_key (.ok h) (.ok d) (.ok t) j tid).calls.take 3 =
      [SdkCall.healthCheck, .destinationsList (some tid), .tenantsGetToken tid] ∧
    (tokenGuard t = true →
      (with_admin_api_key (.ok h) (.ok d) (.ok t) j tid).jwtClient =
        some (tokenValue t) ∧
      (with_admin_api_key (.ok h) (.ok d) (.ok t) j tid).calls =
        [SdkCall.healthCheck, .destinationsList (some tid), .tenantsGetToken tid,
          .outpostInit (tokenValue t), .destinationsList none] ∧
      ∃ pre, (with_admin_api_key (.ok h) (.ok d) (.ok t) j tid).output =
        pre ++ (with_jwt j (tokenValue t)).output) ∧
    (tokenGuard t = false →
      (with_admin_api_key (.ok h) (.ok d) (.ok t) j tid).jwtClient = none ∧
      OutItem.line "Could not obtain tenant token." ∈
        (with_admin_api_key (.ok h) (.ok d) (.ok t) j tid).output) := by
  refine ⟨?_, ?_, ?_⟩
  · by_cases hg : tokenGuard t = true
    · cases j with
      | error e => simp [with_admin_api_key, hg, with_jwt]
      | ok r => simp [with_admin_api_key, hg, with_jwt]
    · simp [with_admin_api_key, hg]
  · intro hg
    refine ⟨by simp [with_admin_api_key, hg], ?_, ?_⟩
    · cases j with
      | error e => simp [with_admin_api_key, hg, with_jwt]
      | ok r => simp [with_admin_api_key, hg, with_jwt]
    · refine ⟨[OutItem.line "--- Running with Admin API Key ---",
        .line "Health check result:", .line h,
        .line ("Destinations listed successfully using Admin Key for tenant "
          ++ tid ++ ":"),
        .line d, .line ("Tenant token obtained for tenant " ++ tid ++ ":"),
        .tokenObj t], ?_⟩
      simp [with_admin_api_key, hg]
  · intro hg
    constructor
    · simp [with_admin_api_key, hg]
    · simp [with_admin_api_key, hg]

/-- Witness for C5: a token response with a truthy token takes the
`with_jwt` branch; a `None` token response prints the failure line. -/
theorem admin_flow_order_witness :
    tokenGuard (PyTokenRes.obj true (some "tok")) = true ∧
    ((with_admin_api_key (.ok "h") (.ok "d") (.ok (PyTokenRes.obj true (some "tok")))
        (.ok "l") "t1").jwtClient = some (tokenValue (PyTokenRes.obj true (some "tok"))) ∧
      (with_admin_api_key (.ok "h") (.ok "d") (.ok (PyTokenRes.obj true (some "tok")))
        (.ok "l") "t1").calls =
        [SdkCall.healthCheck, .destinationsList (some "t1"), .tenantsGetToken "t1",
          .outpostInit (tokenValue (PyTokenRes.obj true (some "tok"))),
          .destinationsList none] ∧
      ∃ pre, (with_admin_api_key (.ok "h") (.ok "d")
          (.ok (PyTokenRes.obj true (some "tok"))) (.ok "l") "t1").output =
        pre ++ (with_jwt (.ok "l") (tokenValue (PyTokenRes.obj true (some "tok")))).output) ∧
    tokenGuard PyTokenRes.pyNone = false ∧
    ((with_admin_api_key (.ok "h") (.ok "d") (.ok PyTokenRes.pyNone)
        (.ok "l") "t1").jwtClient = none ∧
      OutItem.line "Could not obtain tenant token." ∈
        (with_admin_api_key (.ok "h") (.ok "d") (.ok PyTokenRes.pyNone)
          (.ok "l") "t1").output) :=
  ⟨by decide,
   (admin_flow_order "h" "d" (PyTokenRes.obj true (some "tok")) (.ok "l") "t1").2.1
     (by decide),
   by decide,
   (admin_flow_order "h" "d" PyTokenRes.pyNone (.ok "l") "t1").2.2 (by decide)⟩

/-- Claim C6: `run` validates `ADMIN_API_KEY`, `TENANT_ID`, `SERVER_URL` in
that order, printing an error naming the first falsy one and exiting with
status 1 before any client is constructed; with all three set it constructs
the client against `SERVER_URL + "/api/v1"`. -/
theorem run_env_validation :
    (∀ env h d t j, envFalsy (env "ADMIN_API_KEY") = true →
      run env h d t j =
        ⟨[.line "Error: ADMIN_API_KEY not set."], some 1, none⟩) ∧
    (∀ env h d t j, envFalsy (env "ADMIN_API_KEY") = false →
      envFalsy (env "TENANT_ID") = true →
      run env h d t j =
        ⟨[.line "Error: TENANT_ID not set."], some 1, none⟩) ∧
    (∀ env h d t j, envFalsy (env "ADMIN_API_KEY") = false →
      envFalsy (env "TENANT_ID") = false →
      envFalsy (env "SERVER_URL") = true →
      run env h d t j =
        ⟨[.line "Error: SERVER_URL not set."], some 1, none⟩) ∧
    (∀ env h d t j s, envFalsy (env "ADMIN_API_KEY") = false →
      envFalsy (env "TENANT_ID") = false →
      env "SERVER_URL" = some s → ¬s = "" →
      (run env h d t j).exitCode = none ∧
      (run env h d t j).clientUrl = some (s ++ "/api/v1")) := by
  refine ⟨?_, ?_, ?_, ?_⟩
  · intro env h d t j h1
    simp [run, h1]
  · intro env h d t j h1 h2
    simp [run, h1, h2]
  · intro env h d t j h1 h2 h3
    simp [run, h1, h2, h3]
  · intro env h d t j s h1 h2 h3 h4
    have h5 : envFalsy (some s) = false := by
      simpa [envFalsy] using h4
    constructor
    · simp [run, h1, h2, h3, h5]
    · simp [run, h1, h2, h3, h5]

/-- Witness for C6: a concrete environment missing `TENANT_ID` exits with
status 1 naming it; a complete environment constructs the client against
the suffixed URL. -/
theorem run_env_validation_witness :
    run (fun k => if k = "ADMIN_API_KEY" then some "key" else none)
        (.ok "h") (.ok "d") (.ok PyTokenRes.pyNone) (.ok "l") =
      ⟨[.line "Error: TENANT_ID not set."], some 1, none⟩ ∧
    (run (fun k => if k = "SERVER_URL" then some "http://srv" else some "v")
        (.ok "h") (.ok "d") (.ok PyTokenRes.pyNone) (.ok "l")).exitCode = none ∧
    (run (fun k => if k = "SERVER_URL" then some "http://srv" else some "v")
        (.ok "h") (.ok "d") (.ok PyTokenRes.pyNone) (.ok "l")).clientUrl =
      some ("http://srv" ++ "/api/v1") :=
  ⟨run_env_validation.2.1 (fun k => if k = "ADMIN_API_KEY" then some "key" else none)
      (.ok "h") (.ok "d") (.ok PyTokenRes.pyNone) (.ok "l") (by decide) (by decide),
   run_env_validation.2.2.2 (fun k => if k = "SERVER_URL" then some "http://srv" else some "v")
      (.ok "h") (.ok "d") (.ok PyTokenRes.pyNone) (.ok "l") "http://srv"
      (by decide) (by decide) (by decide) (by decide)⟩

/-- Claim C7: the data models mirror the schema's required/optional split:
`AWSKinesisConfig` is built from just `stream_name` and `region`, with
`endpoint` and `partition_key_template` defaulting to `None`, and the two
destination-update models are constructible with no arguments, all fields
`None`. -/
theorem model_optional_defaults (s r : String) :
    ({ stream_name := s, region := r } : AWSKinesisConfig).endpoint = none ∧
    ({ stream_name := s, region := r } : AWSKinesisConfig).partition_key_template
      = none ∧
    ({ stream_name := s, region := r } : AWSKinesisConfig).stream_name = s ∧
    ({ stream_name := s, region := r } : AWSKinesisConfig).region = r ∧
    ({} : DestinationUpdateAWSSQS).topics = none ∧
    ({} : DestinationUpdateAWSSQS).config = none ∧
    ({} : DestinationUpdateAWSSQS).credentials = none ∧
    ({} : DestinationUpdateHookdeck).topics = none ∧
    ({} : DestinationUpdateHookdeck).config = none ∧
    ({} : DestinationUpdateHookdeck).credentials = none :=
  ⟨rfl, rfl, rfl, rfl, rfl, rfl, rfl, rfl, rfl, rfl⟩

/-- Claim C10: `GetTenantRequest` and `GetTenantGlobals` can be constructed
with no arguments, leaving `tenant_id` as `None`: the documented
AdminApiKey requirement is not enforced at the model level. -/
theorem gettenant_no_required_enforcement :
    ({} : GetTenantRequest).tenant_id = none ∧
    ({} : GetTenantGlobals).tenant_id = none :=
  ⟨rfl, rfl⟩

end Outpost
